import Mathlib

/-!
Shallow embedding of the exposure-detection engine of the
`do-not-expose-admission-controller-webhook-services-policy` crate:
the data model (`ServiceDetails` and the slices of the Kubernetes API
types the code reads), the `ServiceFinder` extraction functions
(`service_finder.rs`), the detection orchestration (`check.rs`) and the
`validate` entry point (`lib.rs`), together with theorems settling the
claims about them.

Rust `HashSet` values are modelled as `Finset`; the unspecified
iteration order of the namespace map in `find_webhook_services_exposed`
is modelled by an explicit namespace-order parameter, and the unspecified
iteration order of the exposed set when the rejection message is built is
modelled by keeping the message's `namespace/name` entries as a
`Multiset`.  Fallible operations return `Except`.
-/

namespace Kubewarden

deriving instance DecidableEq for Except

/-- The slice of Kubernetes `ObjectMeta` the policy reads.  The field
`namespace` of the Rust type is called `ns` here because `namespace` is a
Lean keyword. -/
structure ObjectMeta where
  name : Option String
  ns : Option String
  deriving DecidableEq

/-- `k8s_openapi::api::networking::v1::ServiceBackendPort`: a backend port
referenced either by name or by number. -/
structure ServiceBackendPort where
  name : Option String
  number : Option Int
  deriving DecidableEq

/-- `k8s_openapi::api::networking::v1::IngressServiceBackend`. -/
structure IngressServiceBackend where
  name : String
  port : Option ServiceBackendPort
  deriving DecidableEq

/-- `k8s_openapi::api::networking::v1::IngressBackend`. -/
structure IngressBackend where
  service : Option IngressServiceBackend
  deriving DecidableEq

/-- `k8s_openapi::api::networking::v1::HTTPIngressPath`. -/
structure HTTPIngressPath where
  backend : IngressBackend
  path : Option String
  path_type : String
  deriving DecidableEq

/-- `k8s_openapi::api::networking::v1::HTTPIngressRuleValue`. -/
structure HTTPIngressRuleValue where
  paths : List HTTPIngressPath
  deriving DecidableEq

/-- `k8s_openapi::api::networking::v1::IngressRule`. -/
structure IngressRule where
  http : Option HTTPIngressRuleValue
  deriving DecidableEq

/-- The slice of `IngressSpec` the policy reads. -/
structure IngressSpec where
  default_backend : Option IngressBackend
  rules : Option (List IngressRule)
  deriving DecidableEq

/-- `k8s_openapi::api::networking::v1::Ingress`. -/
structure Ingress where
  metadata : ObjectMeta
  spec : Option IngressSpec
  deriving DecidableEq

/-- The slice of `k8s_openapi::api::core::v1::ServicePort` relevant here:
the code reads only `port`; `protocol` is kept because two declared ports
of a Service may carry the same number with different protocols. -/
structure ServicePort where
  port : Int
  protocol : Option String
  deriving DecidableEq

/-- The slice of `k8s_openapi::api::core::v1::ServiceSpec` the policy
reads (`type_` is the Rust field name for the `type` attribute). -/
structure ServiceSpec where
  type_ : Option String
  ports : Option (List ServicePort)
  deriving DecidableEq

/-- `k8s_openapi::api::core::v1::Service`. -/
structure Service where
  metadata : ObjectMeta
  spec : Option ServiceSpec
  deriving DecidableEq

/-- `k8s_openapi::api::admissionregistration::v1::ServiceReference`
(`namespace` renamed to `ns`). -/
structure ServiceReference where
  name : String
  ns : String
  port : Option Int
  deriving DecidableEq

/-- `k8s_openapi::api::admissionregistration::v1::WebhookClientConfig`:
either a service reference or a URL. -/
structure WebhookClientConfig where
  service : Option ServiceReference
  url : Option String
  deriving DecidableEq

/-- A `ValidatingWebhook` entry; the policy reads only `client_config`. -/
structure ValidatingWebhook where
  client_config : WebhookClientConfig
  deriving DecidableEq

/-- `ValidatingWebhookConfiguration`. -/
structure ValidatingWebhookConfiguration where
  metadata : ObjectMeta
  webhooks : Option (List ValidatingWebhook)
  deriving DecidableEq

/-- A `MutatingWebhook` entry; the policy reads only `client_config`. -/
structure MutatingWebhook where
  client_config : WebhookClientConfig
  deriving DecidableEq

/-- `MutatingWebhookConfiguration`. -/
structure MutatingWebhookConfiguration where
  metadata : ObjectMeta
  webhooks : Option (List MutatingWebhook)
  deriving DecidableEq

/-- Modelled from the spec: `service_details.rs` is not among the provided
sources; spec section 3 defines **ServiceIdentity** as the immutable triple
`\x7b namespace, name, port \x7d` with structural equality over all three
fields, which the derived `DecidableEq` provides.  Field names follow the
uses visible in `check.rs`/`service_finder.rs` (`name`, `namespace`,
`port_number`); `namespace` is again rendered as `ns`. -/
structure ServiceDetails where
  name : String
  ns : String
  port_number : Option Int
  deriving DecidableEq

/-- Modelled from the spec: the `From<&ServiceReference>` conversion lives
in the missing `service_details.rs`; spec section 4.2 says the identity of a
webhook entry takes "namespace and name taken from the service reference,
port taken verbatim". -/
def ServiceDetails.ofServiceReference (r : ServiceReference) : ServiceDetails :=
  { name := r.name, ns := r.ns, port_number := r.port }

/-- Modelled from the spec: `ServiceDetails::from_service_backend` lives in
the missing `service_details.rs`; spec section 4.1 describes a constructor
from a ServiceBackend-like reference (name + caller-supplied namespace +
optional port), and section 3 says a backend referencing a named, not
numbered, port yields an absent `port_number`. -/
def ServiceDetails.from_service_backend (ns : String) (sb : IngressServiceBackend) :
    ServiceDetails :=
  { name := sb.name, ns := ns, port_number := sb.port.bind (fun p => p.number) }

/-- `ServiceFinder for ValidatingWebhookConfiguration` in
`service_finder.rs`: one identity per webhook entry with a present
`client_config.service`, collected into a set. -/
def ValidatingWebhookConfiguration.get_services
    (c : ValidatingWebhookConfiguration) : Finset ServiceDetails :=
  match c.webhooks with
  | none => ∅
  | some webhooks =>
      (webhooks.filterMap
        (fun w => w.client_config.service.map ServiceDetails.ofServiceReference)).toFinset

/-- `ServiceFinder for MutatingWebhookConfiguration` in
`service_finder.rs`: same traversal as for the validating kind. -/
def MutatingWebhookConfiguration.get_services
    (c : MutatingWebhookConfiguration) : Finset ServiceDetails :=
  match c.webhooks with
  | none => ∅
  | some webhooks =>
      (webhooks.filterMap
        (fun w => w.client_config.service.map ServiceDetails.ofServiceReference)).toFinset

/-- `ServiceFinder for Ingress` in `service_finder.rs`: empty when `spec`
is absent; otherwise the default backend's service (if any) plus, rule by
rule, every HTTP path's backend service, each tagged with the Ingress's own
metadata namespace (empty string when absent). -/
def Ingress.get_services (i : Ingress) : Finset ServiceDetails :=
  match i.spec with
  | none => ∅
  | some spec =>
      let ns := i.metadata.ns.getD ""
      let withDefault : Finset ServiceDetails :=
        match spec.default_backend.bind (fun b => b.service) with
        | some sb => {ServiceDetails.from_service_backend ns sb}
        | none => ∅
      match spec.rules with
      | none => withDefault
      | some rules =>
          rules.foldl
            (fun acc rule =>
              let ingress_svcs :=
                (rule.http.map
                  (fun http => http.paths.filterMap (fun p => p.backend.service))).getD []
              acc ∪ (ingress_svcs.map (ServiceDetails.from_service_backend ns)).toFinset)
            withDefault

/-- `ServiceFinder for Service` in `service_finder.rs`: one identity per
declared port, all sharing this Service's name and namespace; empty when
`spec` or `spec.ports` is absent. -/
def Service.get_services (s : Service) : Finset ServiceDetails :=
  match s.spec with
  | none => ∅
  | some spec =>
      match spec.ports with
      | none => ∅
      | some ports =>
          (ports.map
            (fun port =>
              { name := s.metadata.name.getD ""
                ns := s.metadata.ns.getD ""
                port_number := some port.port : ServiceDetails })).toFinset

/-- The candidate set a namespace's Ingress list contributes: the loop of
`find_webhook_services_exposed_by_ingress_inside_of_namespace` in
`check.rs` that unions `ingress.get_services()` over all fetched
Ingresses. -/
def ingress_candidates (ingresses : List Ingress) : Finset ServiceDetails :=
  ingresses.foldl (fun acc ingress => acc ∪ ingress.get_services) ∅

/-- The `spec.type_` test of
`find_webhook_services_exposed_by_nodeport_loadbalancer_inside_of_namespace`:
a present spec whose `type_` is exactly `"NodePort"` or `"LoadBalancer"`. -/
def service_is_nodeport_or_loadbalancer (s : Service) : Bool :=
  match s.spec with
  | none => false
  | some spec =>
      match spec.type_ with
      | none => false
      | some t => t == "NodePort" || t == "LoadBalancer"

/-- The candidate set a namespace's Service list contributes: the loop of
`find_webhook_services_exposed_by_nodeport_loadbalancer_inside_of_namespace`
that unions `service.get_services()` over the fetched Services that pass
the NodePort/LoadBalancer type test. -/
def nodeport_loadbalancer_candidates (services : List Service) : Finset ServiceDetails :=
  services.foldl
    (fun acc s =>
      if service_is_nodeport_or_loadbalancer s then acc ∪ s.get_services else acc) ∅

/-- `find_webhook_services_exposed_by_ingress_inside_of_namespace` in
`check.rs`.  The cluster query `list_resources_by_namespace::<Ingress>` is
passed in as `iq`; the `?` operator is the explicit `match` on its result.
The result is the intersection of the Ingress-derived candidates with the
webhook services of the namespace. -/
def find_webhook_services_exposed_by_ingress_inside_of_namespace {ε : Type}
    (iq : String → Except ε (List Ingress))
    (webhook_services : Finset ServiceDetails) (ns : String) :
    Except ε (Finset ServiceDetails) :=
  match iq ns with
  | Except.error e => Except.error e
  | Except.ok ingresses => Except.ok (ingress_candidates ingresses ∩ webhook_services)

/-- `find_webhook_services_exposed_by_nodeport_loadbalancer_inside_of_namespace`
in `check.rs`, with the Service list query passed in as `sq`. -/
def find_webhook_services_exposed_by_nodeport_loadbalancer_inside_of_namespace {ε : Type}
    (sq : String → Except ε (List Service))
    (webhook_services : Finset ServiceDetails) (ns : String) :
    Except ε (Finset ServiceDetails) :=
  match sq ns with
  | Except.error e => Except.error e
  | Except.ok services =>
      Except.ok (nodeport_loadbalancer_candidates services ∩ webhook_services)

/-- The namespace subset the `HashMap` grouping of
`find_webhook_services_exposed` associates with namespace `ns`: the webhook
services whose `namespace` field equals `ns`. -/
def targets_in_namespace (services : Finset ServiceDetails) (ns : String) :
    Finset ServiceDetails :=
  services.filter (fun s => s.ns = ns)

/-- The per-namespace loop of `find_webhook_services_exposed`: visit the
namespaces in the given order, query both mechanisms (propagating the first
query error, as `?` does) and extend the accumulator with both
intersections. -/
def find_webhook_services_exposed_go {ε : Type}
    (iq : String → Except ε (List Ingress))
    (sq : String → Except ε (List Service))
    (services : Finset ServiceDetails) :
    List String → Finset ServiceDetails → Except ε (Finset ServiceDetails)
  | [], acc => Except.ok acc
  | ns :: rest, acc =>
      match find_webhook_services_exposed_by_ingress_inside_of_namespace iq
          (targets_in_namespace services ns) ns with
      | Except.error e => Except.error e
      | Except.ok svcs_exposed_by_ingress =>
          match find_webhook_services_exposed_by_nodeport_loadbalancer_inside_of_namespace sq
              (targets_in_namespace services ns) ns with
          | Except.error e => Except.error e
          | Except.ok svcs_exposed_by_nodeport_loadbalancer =>
              find_webhook_services_exposed_go iq sq services rest
                (acc ∪ svcs_exposed_by_ingress ∪ svcs_exposed_by_nodeport_loadbalancer)

/-- `find_webhook_services_exposed` in `check.rs`.  The Rust function
groups the webhook services by namespace into a `HashMap` and iterates it
in an unspecified order; `ns_order` makes that iteration order an explicit
parameter (theorems constrain it to enumerate the distinct namespaces of
the input set). -/
def find_webhook_services_exposed {ε : Type}
    (iq : String → Except ε (List Ingress))
    (sq : String → Except ε (List Service))
    (ns_order : List String) (services : Finset ServiceDetails) :
    Except ε (Finset ServiceDetails) :=
  find_webhook_services_exposed_go iq sq services ns_order ∅

/-- `ns_order` faithfully plays the role of the key iteration of the
namespace `HashMap`: it lists, without repetition, exactly the distinct
namespaces of the webhook service set. -/
def NamespaceOrderFor (ns_order : List String) (services : Finset ServiceDetails) : Prop :=
  ns_order.Nodup ∧ ns_order.toFinset = services.image (fun s => s.ns)

/-- The decision produced by `validate` in `lib.rs`: accept, or reject
with a message.  The rejection message of the Rust code joins one
`namespace/name` string per element of the exposed set in the unspecified
iteration order of the `HashSet`; it is modelled by the multiset of those
strings. -/
inductive PolicyResponse where
  | accept : PolicyResponse
  | reject : Multiset String → PolicyResponse
  deriving DecidableEq

/-- The `namespace/name` entries of the rejection message built by
`validate`: `format!("\x7b\x7d/\x7b\x7d", svc.namespace, svc.name)` mapped
over the exposed set. -/
def rejection_pairs (exposed_services : Finset ServiceDetails) : Multiset String :=
  exposed_services.val.map (fun svc => svc.ns ++ "/" ++ svc.name)

/-- The incoming admission request as `validate` consumes it: the
`kind.kind` string and the request object.  JSON decoding is outside the
core, so the object is carried as the outcome of decoding it as each of the
two recognized kinds (`serde_json::from_value` in `lib.rs`). -/
structure ValidationRequest (ε : Type) where
  kind_kind : String
  object_as_validating : Except ε ValidatingWebhookConfiguration
  object_as_mutating : Except ε MutatingWebhookConfiguration

/-- The tail of `validate` in `lib.rs`, from the extracted webhook service
set on: run the detector (propagating its error, as `?` does) and map an
empty exposed set to accept and a non-empty one to a rejection carrying one
`namespace/name` entry per exposed identity. -/
def validate_with_services {ε : Type}
    (iq : String → Except ε (List Ingress))
    (sq : String → Except ε (List Service))
    (ns_order : List String) (services : Finset ServiceDetails) :
    Except ε PolicyResponse :=
  match find_webhook_services_exposed iq sq ns_order services with
  | Except.error e => Except.error e
  | Except.ok exposed_services =>
      if exposed_services = ∅ then Except.ok PolicyResponse.accept
      else Except.ok (PolicyResponse.reject (rejection_pairs exposed_services))

/-- `validate` in `lib.rs`: dispatch on `kind.kind` — a
`ValidatingWebhookConfiguration` or `MutatingWebhookConfiguration` is
decoded (a decode failure propagates, as `?` does) and its extracted
service set is checked; any other kind is accepted immediately. -/
def validate {ε : Type}
    (iq : String → Except ε (List Ingress))
    (sq : String → Except ε (List Service))
    (ns_order : List String) (req : ValidationRequest ε) :
    Except ε PolicyResponse :=
  if req.kind_kind = "ValidatingWebhookConfiguration" then
    match req.object_as_validating with
    | Except.error e => Except.error e
    | Except.ok cfg => validate_with_services iq sq ns_order cfg.get_services
  else if req.kind_kind = "MutatingWebhookConfiguration" then
    match req.object_as_mutating with
    | Except.error e => Except.error e
    | Except.ok cfg => validate_with_services iq sq ns_order cfg.get_services
  else Except.ok PolicyResponse.accept

/-- The claim-side formula for the final exposed set, written from the
spec's words: the union, over every distinct namespace `N` appearing in the
target set, of the Ingress-derived identities intersected with the targets
in `N`, together with the NodePort/LoadBalancer-derived identities
intersected with the targets in `N`, given the resource lists each
namespace's queries return. -/
def exposed_set_spec
    (ingressesFor : String → List Ingress) (servicesFor : String → List Service)
    (targets : Finset ServiceDetails) : Finset ServiceDetails :=
  (targets.image (fun s => s.ns)).biUnion
    (fun N =>
      ((ingressesFor N).toFinset.biUnion Ingress.get_services ∩
        targets_in_namespace targets N) ∪
      (((servicesFor N).filter service_is_nodeport_or_loadbalancer).toFinset.biUnion
          Service.get_services ∩
        targets_in_namespace targets N))

/-! ## Helper lemmas -/

/-- Membership in a left fold that unions `f` over a list. -/
theorem mem_foldl_union {α β : Type} [DecidableEq β] (f : α → Finset β) (l : List α)
    (init : Finset β) (x : β) :
    x ∈ l.foldl (fun acc a => acc ∪ f a) init ↔ x ∈ init ∨ ∃ a ∈ l, x ∈ f a := by
  induction l generalizing init with
  | nil => simp
  | cons hd tl ih =>
      simp only [List.foldl_cons, ih, Finset.mem_union, List.mem_cons]
      constructor
      · rintro (⟨hx | hx⟩ | ⟨a, ha, hx⟩)
        · exact Or.inl hx
        · exact Or.inr ⟨hd, Or.inl rfl, hx⟩
        · exact Or.inr ⟨a, Or.inr ha, hx⟩
      · rintro (hx | ⟨a, rfl | ha, hx⟩)
        · exact Or.inl (Or.inl hx)
        · exact Or.inl (Or.inr hx)
        · exact Or.inr ⟨a, ha, hx⟩

/-- Membership in a guarded left fold that unions `f` over the elements
passing the test `c`. -/
theorem mem_foldl_union_guarded {α β : Type} [DecidableEq β] (c : α → Bool) (f : α → Finset β)
    (l : List α) (init : Finset β) (x : β) :
    x ∈ l.foldl (fun acc a => if c a then acc ∪ f a else acc) init ↔
      x ∈ init ∨ ∃ a ∈ l, c a = true ∧ x ∈ f a := by
  induction l generalizing init with
  | nil => simp
  | cons hd tl ih =>
      by_cases hc : c hd = true
      · simp only [List.foldl_cons, hc, if_true, ih, Finset.mem_union, List.mem_cons]
        constructor
        · rintro (⟨hx | hx⟩ | ⟨a, ha, hca, hx⟩)
          · exact Or.inl hx
          · exact Or.inr ⟨hd, Or.inl rfl, hc, hx⟩
          · exact Or.inr ⟨a, Or.inr ha, hca, hx⟩
        · rintro (hx | ⟨a, rfl | ha, hca, hx⟩)
          · exact Or.inl (Or.inl hx)
          · exact Or.inl (Or.inr hx)
          · exact Or.inr ⟨a, ha, hca, hx⟩
      · simp only [List.foldl_cons, hc, if_false, ih, List.mem_cons]
        constructor
        · rintro (hx | ⟨a, ha, hca, hx⟩)
          · exact Or.inl hx
          · exact Or.inr ⟨a, Or.inr ha, hca, hx⟩
        · rintro (hx | ⟨a, rfl | ha, hca, hx⟩)
          · exact Or.inl hx
          · exact absurd hca hc
          · exact Or.inr ⟨a, ha, hca, hx⟩

/-- Membership in `(o.map g).getD []`. -/
theorem mem_option_map_getD {α β : Type} (o : Option α) (g : α → List β) (b : β) :
    b ∈ (o.map g).getD [] ↔ ∃ a, o = some a ∧ b ∈ g a := by
  cases o <;> simp

/-- What `ingress_candidates` contains: exactly the identities extracted
from some Ingress of the list. -/
theorem mem_ingress_candidates (ingresses : List Ingress) (x : ServiceDetails) :
    x ∈ ingress_candidates ingresses ↔ ∃ i ∈ ingresses, x ∈ i.get_services := by
  unfold ingress_candidates
  rw [mem_foldl_union]
  simp

/-- What `nodeport_loadbalancer_candidates` contains: exactly the
identities extracted from some Service of the list that passes the
NodePort/LoadBalancer test. -/
theorem mem_nodeport_loadbalancer_candidates (services : List Service) (x : ServiceDetails) :
    x ∈ nodeport_loadbalancer_candidates services ↔
      ∃ s ∈ services, service_is_nodeport_or_loadbalancer s = true ∧ x ∈ s.get_services := by
  unfold nodeport_loadbalancer_candidates
  rw [mem_foldl_union_guarded]
  simp

/-- The NodePort/LoadBalancer test unfolded: a present spec whose `type_`
is exactly one of the two exposed types. -/
theorem service_is_nodeport_or_loadbalancer_iff (s : Service) :
    service_is_nodeport_or_loadbalancer s = true ↔
      ∃ spec, s.spec = some spec ∧
        (spec.type_ = some "NodePort" ∨ spec.type_ = some "LoadBalancer") := by
  cases hs : s.spec with
  | none => simp [service_is_nodeport_or_loadbalancer, hs]
  | some spec =>
      cases ht : spec.type_ with
      | none => simp [service_is_nodeport_or_loadbalancer, hs, ht]
      | some t => simp [service_is_nodeport_or_loadbalancer, hs, ht]

/-- What `Service.get_services` contains: one identity per declared port,
sharing the Service's name and namespace. -/
theorem mem_service_get_services (s : Service) (x : ServiceDetails) :
    x ∈ s.get_services ↔
      ∃ spec, s.spec = some spec ∧ ∃ ports, spec.ports = some ports ∧
        ∃ p ∈ ports,
          x = { name := s.metadata.name.getD "", ns := s.metadata.ns.getD ""
                port_number := some p.port } := by
  cases hs : s.spec with
  | none => simp [Service.get_services, hs]
  | some spec =>
      cases hp : spec.ports with
      | none => simp [Service.get_services, hs, hp]
      | some ports =>
          simp only [Service.get_services, hs, hp, List.mem_toFinset, List.mem_map]
          constructor
          · rintro ⟨p, hpmem, rfl⟩
            exact ⟨spec, rfl, ports, hp, p, hpmem, rfl⟩
          · rintro ⟨spec', hspec', ports', hports', p, hpmem, rfl⟩
            rw [Option.some.injEq] at hspec'
            subst hspec'
            rw [hp, Option.some.injEq] at hports'
            subst hports'
            exact ⟨p, hpmem, rfl⟩

/-- Membership in the identity set one Ingress rule contributes: one
identity per HTTP path backend service, built with the given namespace. -/
theorem mem_rule_backends (ns : String) (rule : IngressRule) (x : ServiceDetails) :
    x ∈ (((rule.http.map
            (fun http => http.paths.filterMap (fun p => p.backend.service))).getD []).map
          (ServiceDetails.from_service_backend ns)).toFinset ↔
      ∃ http, rule.http = some http ∧ ∃ p ∈ http.paths, ∃ sb, p.backend.service = some sb ∧
        x = ServiceDetails.from_service_backend ns sb := by
  rw [List.mem_toFinset, List.mem_map]
  constructor
  · rintro ⟨sb, hsb, rfl⟩
    rw [mem_option_map_getD] at hsb
    obtain ⟨http, hhttp, hsb⟩ := hsb
    rw [List.mem_filterMap] at hsb
    obtain ⟨p, hp, hps⟩ := hsb
    exact ⟨http, hhttp, p, hp, sb, hps, rfl⟩
  · rintro ⟨http, hhttp, p, hp, sb, hps, rfl⟩
    refine ⟨sb, ?_, rfl⟩
    rw [mem_option_map_getD]
    exact ⟨http, hhttp, List.mem_filterMap.mpr ⟨p, hp, hps⟩⟩

/-- What `Ingress.get_services` contains: the default backend's service
(if any) together with every HTTP path backend of every rule, each built
with the Ingress's own metadata namespace. -/
theorem mem_ingress_get_services (i : Ingress) (x : ServiceDetails) :
    x ∈ i.get_services ↔
      ∃ sp, i.spec = some sp ∧
        ((∃ sb, sp.default_backend.bind (fun b => b.service) = some sb ∧
            x = ServiceDetails.from_service_backend (i.metadata.ns.getD "") sb) ∨
         (∃ rule ∈ sp.rules.getD [], ∃ http, rule.http = some http ∧
            ∃ p ∈ http.paths, ∃ sb, p.backend.service = some sb ∧
              x = ServiceDetails.from_service_backend (i.metadata.ns.getD "") sb)) := by
  cases hs : i.spec with
  | none => simp [Ingress.get_services, hs]
  | some sp =>
      cases hr : sp.rules with
      | none =>
          cases hdb : sp.default_backend.bind (fun b => b.service) with
          | none => simp [Ingress.get_services, hs, hr, hdb]
          | some sb => simp [Ingress.get_services, hs, hr, hdb]
      | some rules =>
          have hgd : sp.rules.getD [] = rules := by rw [hr]; rfl
          cases hdb : sp.default_backend.bind (fun b => b.service) with
          | none =>
              simp only [Ingress.get_services, hs, hr, hdb]
              rw [mem_foldl_union]
              simp only [Finset.not_mem_empty, false_or]
              constructor
              · rintro ⟨rule, hrule, hx⟩
                rw [mem_rule_backends] at hx
                obtain ⟨http, hhttp, p, hp, sb, hps, rfl⟩ := hx
                exact ⟨sp, rfl,
                  Or.inr ⟨rule, by rw [hgd]; exact hrule, http, hhttp, p, hp, sb, hps, rfl⟩⟩
              · rintro ⟨sp', hsp', hcase⟩
                rw [Option.some.injEq] at hsp'
                subst hsp'
                rcases hcase with ⟨sb, hsb, rfl⟩ |
                  ⟨rule, hrule, http, hhttp, p, hp, sb, hps, rfl⟩
                · rw [hdb] at hsb
                  cases hsb
                · rw [hgd] at hrule
                  refine ⟨rule, hrule, ?_⟩
                  rw [mem_rule_backends]
                  exact ⟨http, hhttp, p, hp, sb, hps, rfl⟩
          | some sb₀ =>
              simp only [Ingress.get_services, hs, hr, hdb]
              rw [mem_foldl_union]
              simp only [Finset.mem_singleton]
              constructor
              · rintro (rfl | ⟨rule, hrule, hx⟩)
                · exact ⟨sp, rfl, Or.inl ⟨sb₀, hdb, rfl⟩⟩
                · rw [mem_rule_backends] at hx
                  obtain ⟨http, hhttp, p, hp, sb, hps, rfl⟩ := hx
                  exact ⟨sp, rfl,
                    Or.inr ⟨rule, by rw [hgd]; exact hrule, http, hhttp, p, hp, sb, hps, rfl⟩⟩
              · rintro ⟨sp', hsp', hcase⟩
                rw [Option.some.injEq] at hsp'
                subst hsp'
                rcases hcase with ⟨sb, hsb, rfl⟩ |
                  ⟨rule, hrule, http, hhttp, p, hp, sb, hps, rfl⟩
                · rw [hdb, Option.some.injEq] at hsb
                  subst hsb
                  exact Or.inl rfl
                · rw [hgd] at hrule
                  refine Or.inr ⟨rule, hrule, ?_⟩
                  rw [mem_rule_backends]
                  exact ⟨http, hhttp, p, hp, sb, hps, rfl⟩

/-- `ingress_candidates` as the union of per-Ingress extractions. -/
theorem ingress_candidates_eq_biUnion (ingresses : List Ingress) :
    ingress_candidates ingresses = ingresses.toFinset.biUnion Ingress.get_services := by
  ext x
  rw [mem_ingress_candidates]
  simp [Finset.mem_biUnion]

/-- `nodeport_loadbalancer_candidates` as the union of per-Service
extractions over the Services passing the type test. -/
theorem nodeport_loadbalancer_candidates_eq_biUnion (services : List Service) :
    nodeport_loadbalancer_candidates services =
      (services.filter service_is_nodeport_or_loadbalancer).toFinset.biUnion
        Service.get_services := by
  ext x
  rw [mem_nodeport_loadbalancer_candidates]
  simp only [Finset.mem_biUnion, List.mem_toFinset, List.mem_filter]
  constructor
  · rintro ⟨s, hs, hc, hx⟩
    exact ⟨s, ⟨hs, hc⟩, hx⟩
  · rintro ⟨s, ⟨hs, hc⟩, hx⟩
    exact ⟨s, hs, hc, hx⟩

/-- Unfolding of the per-namespace Ingress detection when the query
succeeds. -/
theorem find_by_ingress_ok {ε : Type} (iq : String → Except ε (List Ingress))
    (webhook_services : Finset ServiceDetails) (ns : String) (ingresses : List Ingress)
    (h : iq ns = Except.ok ingresses) :
    find_webhook_services_exposed_by_ingress_inside_of_namespace iq webhook_services ns =
      Except.ok (ingress_candidates ingresses ∩ webhook_services) := by
  simp [find_webhook_services_exposed_by_ingress_inside_of_namespace, h]

/-- Unfolding of the per-namespace Service detection when the query
succeeds. -/
theorem find_by_nodeport_loadbalancer_ok {ε : Type} (sq : String → Except ε (List Service))
    (webhook_services : Finset ServiceDetails) (ns : String) (services : List Service)
    (h : sq ns = Except.ok services) :
    find_webhook_services_exposed_by_nodeport_loadbalancer_inside_of_namespace sq
        webhook_services ns =
      Except.ok (nodeport_loadbalancer_candidates services ∩ webhook_services) := by
  simp [find_webhook_services_exposed_by_nodeport_loadbalancer_inside_of_namespace, h]

/-- The namespace loop of the detector, when every visited namespace's
queries succeed: it returns the accumulator united with each namespace's
two intersections. -/
theorem find_go_all_ok {ε : Type}
    (iq : String → Except ε (List Ingress)) (sq : String → Except ε (List Service))
    (ingressesFor : String → List Ingress) (servicesFor : String → List Service)
    (targets : Finset ServiceDetails) (l : List String)
    (hiq : ∀ N ∈ l, iq N = Except.ok (ingressesFor N))
    (hsq : ∀ N ∈ l, sq N = Except.ok (servicesFor N))
    (acc : Finset ServiceDetails) :
    find_webhook_services_exposed_go iq sq targets l acc =
      Except.ok (acc ∪ l.toFinset.biUnion (fun N =>
        (ingress_candidates (ingressesFor N) ∩ targets_in_namespace targets N) ∪
        (nodeport_loadbalancer_candidates (servicesFor N) ∩
          targets_in_namespace targets N))) := by
  induction l generalizing acc with
  | nil => simp [find_webhook_services_exposed_go]
  | cons hd tl ih =>
      have h1 : iq hd = Except.ok (ingressesFor hd) := hiq hd (List.mem_cons_self hd tl)
      have h2 : sq hd = Except.ok (servicesFor hd) := hsq hd (List.mem_cons_self hd tl)
      rw [find_webhook_services_exposed_go,
        find_by_ingress_ok iq (targets_in_namespace targets hd) hd (ingressesFor hd) h1,
        find_by_nodeport_loadbalancer_ok sq (targets_in_namespace targets hd) hd
          (servicesFor hd) h2]
      show find_webhook_services_exposed_go iq sq targets tl
          (acc ∪ (ingress_candidates (ingressesFor hd) ∩ targets_in_namespace targets hd) ∪
            (nodeport_loadbalancer_candidates (servicesFor hd) ∩
              targets_in_namespace targets hd)) = _
      rw [ih (fun N hN => hiq N (List.mem_cons_of_mem hd hN))
          (fun N hN => hsq N (List.mem_cons_of_mem hd hN))]
      rw [List.toFinset_cons, Finset.biUnion_insert, ← Finset.union_assoc,
        ← Finset.union_assoc]

/-- The namespace loop of the detector, when some visited namespace's
Ingress query fails — or its Ingress query succeeds and its Service query
fails — while every other visited namespace's queries succeed: the loop
stops with exactly that error. -/
theorem find_go_query_error {ε : Type}
    (iq : String → Except ε (List Ingress)) (sq : String → Except ε (List Service))
    (targets : Finset ServiceDetails) (l : List String) (N : String) (e : ε)
    (hN : N ∈ l)
    (herr : iq N = Except.error e ∨
      ((∃ ingresses, iq N = Except.ok ingresses) ∧ sq N = Except.error e))
    (hothers : ∀ M ∈ l, M ≠ N →
      (∃ ingresses, iq M = Except.ok ingresses) ∧ (∃ services, sq M = Except.ok services))
    (acc : Finset ServiceDetails) :
    find_webhook_services_exposed_go iq sq targets l acc = Except.error e := by
  induction l generalizing acc with
  | nil => cases hN
  | cons hd tl ih =>
      by_cases hhd : hd = N
      · subst hhd
        rcases herr with hiqe | ⟨⟨ingresses, hiqok⟩, hsqe⟩
        · rw [find_webhook_services_exposed_go]
          simp [find_webhook_services_exposed_by_ingress_inside_of_namespace, hiqe]
        · rw [find_webhook_services_exposed_go,
            find_by_ingress_ok iq (targets_in_namespace targets hd) hd ingresses hiqok]
          simp [find_webhook_services_exposed_by_nodeport_loadbalancer_inside_of_namespace,
            hsqe]
      · obtain ⟨⟨ingresses, h1⟩, ⟨services, h2⟩⟩ :=
          hothers hd (List.mem_cons_self hd tl) hhd
        rw [find_webhook_services_exposed_go,
          find_by_ingress_ok iq (targets_in_namespace targets hd) hd ingresses h1,
          find_by_nodeport_loadbalancer_ok sq (targets_in_namespace targets hd) hd services h2]
        have hNtl : N ∈ tl := by
          rcases List.mem_cons.mp hN with h | h
          · exact absurd h.symm hhd
          · exact h
        exact ih hNtl (fun M hM hMN => hothers M (List.mem_cons_of_mem hd hM) hMN) _

/-- The namespace loop of the detector never produces a set when some
visited namespace's Ingress query fails, or its Ingress query succeeds and
its Service query fails — whatever the other namespaces' queries do. -/
theorem find_go_query_error_no_ok {ε : Type}
    (iq : String → Except ε (List Ingress)) (sq : String → Except ε (List Service))
    (targets : Finset ServiceDetails) (l : List String) (N : String) (e : ε)
    (hN : N ∈ l)
    (herr : iq N = Except.error e ∨
      ((∃ ingresses, iq N = Except.ok ingresses) ∧ sq N = Except.error e)) :
    ∀ acc : Finset ServiceDetails,
      ¬∃ E, find_webhook_services_exposed_go iq sq targets l acc = Except.ok E := by
  induction l with
  | nil => cases hN
  | cons hd tl ih =>
      intro acc ⟨E, hE⟩
      rw [find_webhook_services_exposed_go] at hE
      cases hiq : iq hd with
      | error e' =>
          rw [find_webhook_services_exposed_by_ingress_inside_of_namespace, hiq] at hE
          cases hE
      | ok ingresses =>
          rw [find_by_ingress_ok iq (targets_in_namespace targets hd) hd ingresses hiq]
            at hE
          cases hsq : sq hd with
          | error e' =>
              rw [find_webhook_services_exposed_by_nodeport_loadbalancer_inside_of_namespace,
                hsq] at hE
              cases hE
          | ok services =>
              rw [find_by_nodeport_loadbalancer_ok sq (targets_in_namespace targets hd) hd
                services hsq] at hE
              have hNtl : N ∈ tl := by
                rcases List.mem_cons.mp hN with h | h
                · subst h
                  rcases herr with herr | ⟨_, herr⟩
                  · rw [herr] at hiq
                    cases hiq
                  · rw [herr] at hsq
                    cases hsq
                · exact h
              exact ih hNtl _ ⟨E, hE⟩

/-- The namespace loop of the detector only grows the accumulator with
subsets of the full webhook target set: a successful run starting from an
accumulator inside the target set ends inside the target set. -/
theorem find_go_subset {ε : Type}
    (iq : String → Except ε (List Ingress)) (sq : String → Except ε (List Service))
    (targets : Finset ServiceDetails) (l : List String) :
    ∀ (acc E : Finset ServiceDetails), acc ⊆ targets →
      find_webhook_services_exposed_go iq sq targets l acc = Except.ok E → E ⊆ targets := by
  induction l with
  | nil =>
      intro acc E hacc h
      rw [find_webhook_services_exposed_go, Except.ok.injEq] at h
      exact h ▸ hacc
  | cons hd tl ih =>
      intro acc E hacc h
      rw [find_webhook_services_exposed_go] at h
      cases hiq : iq hd with
      | error e =>
          rw [find_webhook_services_exposed_by_ingress_inside_of_namespace] at h
          rw [hiq] at h
          cases h
      | ok ingresses =>
          rw [find_by_ingress_ok iq (targets_in_namespace targets hd) hd ingresses hiq] at h
          cases hsq : sq hd with
          | error e =>
              rw [find_webhook_services_exposed_by_nodeport_loadbalancer_inside_of_namespace]
                at h
              rw [hsq] at h
              cases h
          | ok services =>
              rw [find_by_nodeport_loadbalancer_ok sq (targets_in_namespace targets hd) hd
                services hsq] at h
              refine ih _ E ?_ h
              intro x hx
              rcases Finset.mem_union.mp hx with hx' | hx'
              · rcases Finset.mem_union.mp hx' with hx'' | hx''
                · exact hacc hx''
                · exact Finset.filter_subset _ _ (Finset.mem_of_mem_inter_right hx'')
              · exact Finset.filter_subset _ _ (Finset.mem_of_mem_inter_right hx')

/-- The request carries (the decode of) a webhook configuration of one of
the two recognized kinds whose extracted webhook service set is
`services`. -/
def RequestDecodesTo {ε : Type} (req : ValidationRequest ε)
    (services : Finset ServiceDetails) : Prop :=
  (req.kind_kind = "ValidatingWebhookConfiguration" ∧
    ∃ cfg, req.object_as_validating = Except.ok cfg ∧ cfg.get_services = services) ∨
  (req.kind_kind = "MutatingWebhookConfiguration" ∧
    ∃ cfg, req.object_as_mutating = Except.ok cfg ∧ cfg.get_services = services)

/-! ## Claim theorems -/

/-- C1: when the per-namespace cluster queries all succeed,
`find_webhook_services_exposed` returns exactly the union, over every
distinct namespace `N` appearing in the target set, of the Ingress-derived
identity sets intersected with the targets in `N` together with the
NodePort/LoadBalancer-derived identity sets intersected with the targets
in `N`. -/
theorem find_webhook_services_exposed_all_queries_ok {ε : Type}
    (iq : String → Except ε (List Ingress)) (sq : String → Except ε (List Service))
    (ingressesFor : String → List Ingress) (servicesFor : String → List Service)
    (targets : Finset ServiceDetails) (ns_order : List String)
    (horder : NamespaceOrderFor ns_order targets)
    (hiq : ∀ N ∈ ns_order, iq N = Except.ok (ingressesFor N))
    (hsq : ∀ N ∈ ns_order, sq N = Except.ok (servicesFor N)) :
    find_webhook_services_exposed iq sq ns_order targets =
      Except.ok (exposed_set_spec ingressesFor servicesFor targets) := by
  rw [find_webhook_services_exposed,
    find_go_all_ok iq sq ingressesFor servicesFor targets ns_order hiq hsq ∅,
    Finset.empty_union, exposed_set_spec, ← horder.2]
  exact congrArg Except.ok
    (Finset.biUnion_congr rfl (fun N _ => by
      rw [ingress_candidates_eq_biUnion, nodeport_loadbalancer_candidates_eq_biUnion]))

def w_target : ServiceDetails :=
  { name := "my-service", ns := "my-namespace", port_number := some 80 }

def w_targets : Finset ServiceDetails := {w_target}

def w_ingress : Ingress :=
  { metadata := { name := some "my-ingress", ns := some "my-namespace" }
  , spec := some
      { default_backend := some
          { service := some
              { name := "my-service"
              , port := some { name := none, number := some 80 } } }
      , rules := none } }

def w_ingressesFor : String → List Ingress := fun _ => [w_ingress]

def w_servicesFor : String → List Service := fun _ => []

def w_iq : String → Except String (List Ingress) := fun N => Except.ok (w_ingressesFor N)

def w_sq : String → Except String (List Service) := fun N => Except.ok (w_servicesFor N)

/-- Witness for C1 at a concrete input: one webhook target, exposed by an
Ingress default backend in its namespace. -/
theorem find_webhook_services_exposed_all_queries_ok_witness :
    NamespaceOrderFor ["my-namespace"] w_targets ∧
    find_webhook_services_exposed w_iq w_sq ["my-namespace"] w_targets =
      Except.ok (exposed_set_spec w_ingressesFor w_servicesFor w_targets) :=
  ⟨⟨by decide, by decide⟩,
    find_webhook_services_exposed_all_queries_ok w_iq w_sq w_ingressesFor w_servicesFor
      w_targets ["my-namespace"] ⟨by decide, by decide⟩
      (fun _ _ => rfl) (fun _ _ => rfl)⟩

/-- C2: if the Ingress query of some namespace of the partition fails —
or its Ingress query succeeds and its Service query fails — then
`find_webhook_services_exposed` never returns a set (the failure is not
converted into an empty or partial result), and when every other
namespace's queries succeed it returns exactly that error. -/
theorem find_webhook_services_exposed_propagates_query_error {ε : Type}
    (iq : String → Except ε (List Ingress)) (sq : String → Except ε (List Service))
    (targets : Finset ServiceDetails) (ns_order : List String) (N : String) (e : ε)
    (_horder : NamespaceOrderFor ns_order targets)
    (hN : N ∈ ns_order)
    (herr : iq N = Except.error e ∨
      ((∃ ingresses, iq N = Except.ok ingresses) ∧ sq N = Except.error e)) :
    (¬∃ E, find_webhook_services_exposed iq sq ns_order targets = Except.ok E) ∧
    ((∀ M ∈ ns_order, M ≠ N →
        (∃ ingresses, iq M = Except.ok ingresses) ∧
        (∃ services, sq M = Except.ok services)) →
      find_webhook_services_exposed iq sq ns_order targets = Except.error e) :=
  ⟨find_go_query_error_no_ok iq sq targets ns_order N e hN herr ∅,
    fun hothers => find_go_query_error iq sq targets ns_order N e hN herr hothers ∅⟩

def c2_iq : String → Except String (List Ingress) :=
  fun _ => Except.error "ingress query failed"

/-- Witness for C2 at a concrete input: the single namespace's Ingress
query fails and the failure comes back verbatim. -/
theorem find_webhook_services_exposed_propagates_query_error_witness :
    NamespaceOrderFor ["my-namespace"] w_targets ∧
    c2_iq "my-namespace" = Except.error "ingress query failed" ∧
    (¬∃ E, find_webhook_services_exposed c2_iq w_sq ["my-namespace"] w_targets =
      Except.ok E) ∧
    find_webhook_services_exposed c2_iq w_sq ["my-namespace"] w_targets =
      Except.error "ingress query failed" :=
  ⟨⟨by decide, by decide⟩, rfl,
    (find_webhook_services_exposed_propagates_query_error c2_iq w_sq w_targets
      ["my-namespace"] "my-namespace" "ingress query failed"
      ⟨by decide, by decide⟩ (List.mem_singleton.mpr rfl) (Or.inl rfl)).1,
    (find_webhook_services_exposed_propagates_query_error c2_iq w_sq w_targets
      ["my-namespace"] "my-namespace" "ingress query failed"
      ⟨by decide, by decide⟩ (List.mem_singleton.mpr rfl) (Or.inl rfl)).2
      (fun M hM hne => absurd (List.mem_singleton.mp hM) hne)⟩

/-- C3 (amended): for a Service with a present spec and declared ports,
extraction yields exactly the set of one identity per declared port, all
sharing the Service's name and namespace; its size is the number of
distinct declared port numbers, which equals the number of declared ports
when the declared port numbers are pairwise distinct. -/
theorem service_get_services_per_distinct_port (s : Service) (spec : ServiceSpec)
    (ports : List ServicePort) (hspec : s.spec = some spec)
    (hports : spec.ports = some ports) :
    s.get_services =
      (ports.map (fun port =>
        ({ name := s.metadata.name.getD "", ns := s.metadata.ns.getD ""
           port_number := some port.port } : ServiceDetails))).toFinset ∧
    (∀ x ∈ s.get_services,
      x.name = s.metadata.name.getD "" ∧ x.ns = s.metadata.ns.getD "") ∧
    s.get_services.card = (ports.map (fun port => port.port)).dedup.length ∧
    ((ports.map (fun port => port.port)).Nodup → s.get_services.card = ports.length) := by
  have heq : s.get_services =
      (ports.map (fun port =>
        ({ name := s.metadata.name.getD "", ns := s.metadata.ns.getD ""
           port_number := some port.port } : ServiceDetails))).toFinset := by
    simp [Service.get_services, hspec, hports]
  have hinj : Function.Injective (fun pn : Int =>
      ({ name := s.metadata.name.getD "", ns := s.metadata.ns.getD ""
         port_number := some pn } : ServiceDetails)) := by
    intro a b h
    simpa using congrArg ServiceDetails.port_number h
  have himg : s.get_services =
      ((ports.map (fun port => port.port)).toFinset).image (fun pn =>
        ({ name := s.metadata.name.getD "", ns := s.metadata.ns.getD ""
           port_number := some pn } : ServiceDetails)) := by
    rw [heq]
    ext x
    simp only [List.mem_toFinset, List.mem_map, Finset.mem_image]
    constructor
    · rintro ⟨p, hp, rfl⟩
      exact ⟨p.port, ⟨p, hp, rfl⟩, rfl⟩
    · rintro ⟨pn, ⟨p, hp, rfl⟩, rfl⟩
      exact ⟨p, hp, rfl⟩
  have hcard : s.get_services.card = (ports.map (fun port => port.port)).dedup.length := by
    rw [himg, Finset.card_image_of_injective _ hinj, List.card_toFinset]
  refine ⟨heq, ?_, hcard, ?_⟩
  · intro x hx
    rw [heq, List.mem_toFinset, List.mem_map] at hx
    obtain ⟨p, _, rfl⟩ := hx
    exact ⟨rfl, rfl⟩
  · intro hnodup
    rw [hcard, List.dedup_eq_self.mpr hnodup, List.length_map]

def dns_service_ports : List ServicePort :=
  [{ port := 53, protocol := some "TCP" }, { port := 53, protocol := some "UDP" }]

def dns_service_spec : ServiceSpec :=
  { type_ := some "NodePort", ports := some dns_service_ports }

def dns_service : Service :=
  { metadata := { name := some "kube-dns", ns := some "kube-system" }
  , spec := some dns_service_spec }

/-- C3 counterexample: a Service declaring two ports with the same port
number (TCP and UDP port 53, as a DNS Service does) has a ports list of
length 2 but extraction yields a single identity, because the result is a
set of `(namespace, name, port-number)` triples — not "exactly N values,
one per declared port". -/
theorem service_get_services_length_counterexample :
    dns_service.spec = some dns_service_spec ∧
    dns_service_spec.ports = some dns_service_ports ∧
    dns_service_ports.length = 2 ∧
    dns_service.get_services.card = 1 := by
  refine ⟨rfl, rfl, rfl, ?_⟩
  decide

def three_port_ports : List ServicePort :=
  [{ port := 80, protocol := none }, { port := 443, protocol := none }
  , { port := 8443, protocol := none }]

def three_port_spec : ServiceSpec :=
  { type_ := some "LoadBalancer", ports := some three_port_ports }

def three_port_service : Service :=
  { metadata := { name := some "my-service", ns := some "my-namespace" }
  , spec := some three_port_spec }

/-- Witness for C3 (amended) at a concrete input: a Service with three
pairwise distinct declared port numbers yields a set of size three. -/
theorem service_get_services_per_distinct_port_witness :
    three_port_service.spec = some three_port_spec ∧
    three_port_spec.ports = some three_port_ports ∧
    three_port_service.get_services.card = three_port_ports.length :=
  ⟨rfl, rfl,
    (service_get_services_per_distinct_port three_port_service three_port_spec
      three_port_ports rfl rfl).2.2.2 (by decide)⟩

/-- C4: of the Services returned by the cluster query, exactly those with
a present spec whose `spec.type` is the exact string `"NodePort"` or
`"LoadBalancer"` contribute to the exposed-candidate set; a Service with
any other type, an absent type, or an absent spec contributes nothing —
membership in the candidate set requires a contributing Service to pass
the type test, whatever its name, namespace and ports are. -/
theorem nodeport_loadbalancer_type_filter {ε : Type}
    (sq : String → Except ε (List Service)) (webhook_services : Finset ServiceDetails)
    (ns : String) (services : List Service)
    (hsq : sq ns = Except.ok services) :
    find_webhook_services_exposed_by_nodeport_loadbalancer_inside_of_namespace sq
        webhook_services ns =
      Except.ok (nodeport_loadbalancer_candidates services ∩ webhook_services) ∧
    ∀ x : ServiceDetails,
      x ∈ nodeport_loadbalancer_candidates services ↔
        ∃ s ∈ services,
          (∃ spec, s.spec = some spec ∧
            (spec.type_ = some "NodePort" ∨ spec.type_ = some "LoadBalancer")) ∧
          x ∈ s.get_services := by
  refine ⟨find_by_nodeport_loadbalancer_ok sq webhook_services ns services hsq, fun x => ?_⟩
  rw [mem_nodeport_loadbalancer_candidates]
  constructor
  · rintro ⟨s, hs, hc, hx⟩
    exact ⟨s, hs, (service_is_nodeport_or_loadbalancer_iff s).mp hc, hx⟩
  · rintro ⟨s, hs, hc, hx⟩
    exact ⟨s, hs, (service_is_nodeport_or_loadbalancer_iff s).mpr hc, hx⟩

def clusterip_service : Service :=
  { metadata := { name := some "my-service", ns := some "my-namespace" }
  , spec := some { type_ := some "ClusterIP", ports := some [{ port := 80, protocol := none }] } }

def c4_sq : String → Except String (List Service) := fun _ => Except.ok [clusterip_service]

/-- Witness for C4 at a concrete input: a ClusterIP Service whose name,
namespace and port match the webhook target exactly still contributes
nothing — the candidate set is empty. -/
theorem nodeport_loadbalancer_type_filter_witness :
    c4_sq "my-namespace" = Except.ok [clusterip_service] ∧
    (w_target ∈ nodeport_loadbalancer_candidates [clusterip_service] ↔
      ∃ s ∈ [clusterip_service],
        (∃ spec, s.spec = some spec ∧
          (spec.type_ = some "NodePort" ∨ spec.type_ = some "LoadBalancer")) ∧
        w_target ∈ s.get_services) ∧
    w_target ∉ nodeport_loadbalancer_candidates [clusterip_service] :=
  ⟨rfl,
    (nodeport_loadbalancer_type_filter c4_sq w_targets "my-namespace"
      [clusterip_service] rfl).2 w_target,
    by decide⟩

/-- C5: Ingress extraction yields the empty set when `spec` is absent, and
otherwise exactly the identities of `spec.defaultBackend.service` (when
present) and of every path backend service of every HTTP rule; every
emitted identity carries the namespace of the Ingress's own metadata
(empty string when absent) — the backend reference carries no namespace of
its own. -/
theorem ingress_extraction_characterization (i : Ingress) :
    (i.spec = none → i.get_services = ∅) ∧
    (∀ sp, i.spec = some sp → ∀ x : ServiceDetails,
      (x ∈ i.get_services ↔
        (∃ sb, sp.default_backend.bind (fun b => b.service) = some sb ∧
          x = ServiceDetails.from_service_backend (i.metadata.ns.getD "") sb) ∨
        (∃ rule ∈ sp.rules.getD [], ∃ http, rule.http = some http ∧
          ∃ p ∈ http.paths, ∃ sb, p.backend.service = some sb ∧
            x = ServiceDetails.from_service_backend (i.metadata.ns.getD "") sb))) ∧
    (∀ x ∈ i.get_services, x.ns = i.metadata.ns.getD "") := by
  refine ⟨?_, ?_, ?_⟩
  · intro h
    simp [Ingress.get_services, h]
  · intro sp hsp x
    rw [mem_ingress_get_services]
    constructor
    · rintro ⟨sp', hsp', h⟩
      rw [hsp, Option.some.injEq] at hsp'
      subst hsp'
      exact h
    · intro h
      exact ⟨sp, hsp, h⟩
  · intro x hx
    rw [mem_ingress_get_services] at hx
    obtain ⟨sp, hsp, ⟨sb, hsb, rfl⟩ | ⟨rule, hrule, http, hhttp, p, hp, sb, hps, rfl⟩⟩ := hx
    · rfl
    · rfl

def c5_backend : IngressServiceBackend :=
  { name := "my-service", port := some { name := none, number := some 80 } }

def c5_path : HTTPIngressPath :=
  { backend := { service := some c5_backend }, path := some "/api", path_type := "Prefix" }

def c5_rule : IngressRule :=
  { http := some { paths := [c5_path] } }

def c5_rule_ingress : Ingress :=
  { metadata := { name := some "rule-ingress", ns := some "my-namespace" }
  , spec := some { default_backend := none, rules := some [c5_rule] } }

/-- Witness for C5 at a concrete input: an Ingress with one HTTP rule path
backend emits exactly that backend's identity, tagged with the Ingress's
metadata namespace. -/
theorem ingress_extraction_characterization_witness :
    c5_rule_ingress.spec.isSome = true ∧
    w_target ∈ c5_rule_ingress.get_services ∧
    w_target.ns = c5_rule_ingress.metadata.ns.getD "" :=
  ⟨rfl, by decide,
    (ingress_extraction_characterization c5_rule_ingress).2.2 w_target (by decide)⟩

/-- C6: membership in an exposed set requires exact equality on all three
fields of an identity — whenever every candidate identity derived from the
namespace's Ingresses and NodePort/LoadBalancer Services differs from a
target `t` in its namespace, its name or its port, `t` is absent from both
per-namespace results; a port-80 target is not matched by a port-81
exposure of the same name and namespace, nor do two namespaces
cross-match. -/
theorem exposure_matching_exact_on_all_fields {ε : Type}
    (iq : String → Except ε (List Ingress)) (sq : String → Except ε (List Service))
    (webhook_services : Finset ServiceDetails) (ns : String)
    (ingresses : List Ingress) (services : List Service) (t : ServiceDetails)
    (hiq : iq ns = Except.ok ingresses) (hsq : sq ns = Except.ok services)
    (hmiss : ∀ x ∈ ingress_candidates ingresses ∪ nodeport_loadbalancer_candidates services,
      ¬(x.ns = t.ns ∧ x.name = t.name ∧ x.port_number = t.port_number)) :
    (∀ E, find_webhook_services_exposed_by_ingress_inside_of_namespace iq
        webhook_services ns = Except.ok E → t ∉ E) ∧
    (∀ E, find_webhook_services_exposed_by_nodeport_loadbalancer_inside_of_namespace sq
        webhook_services ns = Except.ok E → t ∉ E) := by
  constructor
  · intro E hE ht
    rw [find_by_ingress_ok iq webhook_services ns ingresses hiq, Except.ok.injEq] at hE
    subst hE
    exact hmiss t (Finset.mem_union_left _ (Finset.mem_of_mem_inter_left ht)) ⟨rfl, rfl, rfl⟩
  · intro E hE ht
    rw [find_by_nodeport_loadbalancer_ok sq webhook_services ns services hsq,
      Except.ok.injEq] at hE
    subst hE
    exact hmiss t (Finset.mem_union_right _ (Finset.mem_of_mem_inter_left ht)) ⟨rfl, rfl, rfl⟩

def c6_ingress_port81 : Ingress :=
  { metadata := { name := some "my-ingress", ns := some "my-namespace" }
  , spec := some
      { default_backend := some
          { service := some
              { name := "my-service"
              , port := some { name := none, number := some 81 } } }
      , rules := none } }

def c6_service_other_ns : Service :=
  { metadata := { name := some "my-service", ns := some "other-namespace" }
  , spec := some { type_ := some "NodePort", ports := some [{ port := 80, protocol := none }] } }

def c6_iq : String → Except String (List Ingress) := fun _ => Except.ok [c6_ingress_port81]

def c6_sq : String → Except String (List Service) := fun _ => Except.ok [c6_service_other_ns]

/-- Witness for C6 at a concrete input: an Ingress exposing the same
name/namespace at port 81 and a NodePort Service exposing the same
name/port in another namespace never match the port-80 target. -/
theorem exposure_matching_exact_on_all_fields_witness :
    (∀ x ∈ ingress_candidates [c6_ingress_port81] ∪
        nodeport_loadbalancer_candidates [c6_service_other_ns],
      ¬(x.ns = w_target.ns ∧ x.name = w_target.name ∧
        x.port_number = w_target.port_number)) ∧
    w_target ∉ ingress_candidates [c6_ingress_port81] ∩ w_targets ∧
    w_target ∉ nodeport_loadbalancer_candidates [c6_service_other_ns] ∩ w_targets :=
  ⟨by decide,
    (exposure_matching_exact_on_all_fields c6_iq c6_sq w_targets "my-namespace"
      [c6_ingress_port81] [c6_service_other_ns] w_target rfl rfl (by decide)).1 _ rfl,
    (exposure_matching_exact_on_all_fields c6_iq c6_sq w_targets "my-namespace"
      [c6_ingress_port81] [c6_service_other_ns] w_target rfl rfl (by decide)).2 _ rfl⟩

/-- C7 (amended): when the detector succeeds, an empty exposed set makes
`validate` accept, and a non-empty one makes it reject with a message
carrying exactly one `namespace/name` entry per exposed identity — every
exposed pair is listed, but a pair can appear more than once when the same
service is exposed at several ports. -/
theorem validate_decision_mapping {ε : Type}
    (iq : String → Except ε (List Ingress)) (sq : String → Except ε (List Service))
    (ns_order : List String) (req : ValidationRequest ε)
    (services E : Finset ServiceDetails)
    (hdec : RequestDecodesTo req services)
    (hfind : find_webhook_services_exposed iq sq ns_order services = Except.ok E) :
    (E = ∅ → validate iq sq ns_order req = Except.ok PolicyResponse.accept) ∧
    (E ≠ ∅ →
      validate iq sq ns_order req = Except.ok (PolicyResponse.reject (rejection_pairs E)) ∧
      Multiset.card (rejection_pairs E) = E.card ∧
      (∀ pair, pair ∈ rejection_pairs E ↔ ∃ svc ∈ E, pair = svc.ns ++ "/" ++ svc.name)) := by
  have htail : validate_with_services iq sq ns_order services =
      (if E = ∅ then Except.ok PolicyResponse.accept
       else Except.ok (PolicyResponse.reject (rejection_pairs E))) := by
    rw [validate_with_services, hfind]
  have hval : validate iq sq ns_order req =
      (if E = ∅ then Except.ok PolicyResponse.accept
       else Except.ok (PolicyResponse.reject (rejection_pairs E))) := by
    rcases hdec with ⟨hkind, cfg, hobj, hsvcs⟩ | ⟨hkind, cfg, hobj, hsvcs⟩
    · rw [validate, if_pos hkind, hobj]
      show validate_with_services iq sq ns_order cfg.get_services = _
      rw [hsvcs, htail]
    · have hne : ¬req.kind_kind = "ValidatingWebhookConfiguration" := by
        rw [hkind]
        decide
      rw [validate, if_neg hne, if_pos hkind, hobj]
      show validate_with_services iq sq ns_order cfg.get_services = _
      rw [hsvcs, htail]
  constructor
  · intro hE
    rw [hval, if_pos hE]
  · intro hE
    refine ⟨by rw [hval, if_neg hE], ?_, ?_⟩
    · rw [rejection_pairs, Multiset.card_map]
      rfl
    · intro pair
      rw [rejection_pairs, Multiset.mem_map]
      constructor
      · rintro ⟨svc, hsvc, rfl⟩
        exact ⟨svc, Finset.mem_def.mpr hsvc, rfl⟩
      · rintro ⟨svc, hsvc, rfl⟩
        exact ⟨svc, Finset.mem_def.mp hsvc, rfl⟩

def c7_webhook_80 : ValidatingWebhook :=
  { client_config :=
      { service := some { name := "my-service", ns := "my-namespace", port := some 80 }
      , url := none } }

def c7_webhook_443 : ValidatingWebhook :=
  { client_config :=
      { service := some { name := "my-service", ns := "my-namespace", port := some 443 }
      , url := none } }

def c7_config : ValidatingWebhookConfiguration :=
  { metadata := { name := some "my-webhook-config", ns := none }
  , webhooks := some [c7_webhook_80, c7_webhook_443] }

def c7_request : ValidationRequest String :=
  { kind_kind := "ValidatingWebhookConfiguration"
  , object_as_validating := Except.ok c7_config
  , object_as_mutating := Except.error "decoded as the validating kind" }

def c7_nodeport : Service :=
  { metadata := { name := some "my-service", ns := some "my-namespace" }
  , spec := some
      { type_ := some "NodePort"
      , ports := some [{ port := 80, protocol := none }, { port := 443, protocol := none }] } }

def c7_iq : String → Except String (List Ingress) := fun _ => Except.ok []

def c7_sq : String → Except String (List Service) := fun _ => Except.ok [c7_nodeport]

def c7_exposed : Finset ServiceDetails :=
  { { name := "my-service", ns := "my-namespace", port_number := some 80 }
  , { name := "my-service", ns := "my-namespace", port_number := some 443 } }

/-- C7 counterexample: a configuration whose webhooks target the same
service at ports 80 and 443, both exposed by one NodePort Service, is
rejected with a message whose `namespace/name` entries contain
`my-namespace/my-service` twice — the pairs are not deduplicated. -/
theorem validate_message_pairs_not_deduplicated_counterexample :
    validate c7_iq c7_sq ["my-namespace"] c7_request =
      Except.ok (PolicyResponse.reject
        (Multiset.ofList ["my-namespace/my-service", "my-namespace/my-service"])) ∧
    ¬(Multiset.ofList ["my-namespace/my-service", "my-namespace/my-service"]).Nodup := by
  constructor
  · rfl
  · decide

/-- Witness for C7 (amended) at a concrete input: the two-port exposure
produces a rejection carrying `rejection_pairs` of the exposed set. -/
theorem validate_decision_mapping_witness :
    RequestDecodesTo c7_request c7_config.get_services ∧
    find_webhook_services_exposed c7_iq c7_sq ["my-namespace"] c7_config.get_services =
      Except.ok c7_exposed ∧
    c7_exposed ≠ ∅ ∧
    validate c7_iq c7_sq ["my-namespace"] c7_request =
      Except.ok (PolicyResponse.reject (rejection_pairs c7_exposed)) :=
  ⟨Or.inl ⟨rfl, c7_config, rfl, rfl⟩, by decide, by decide,
    ((validate_decision_mapping c7_iq c7_sq ["my-namespace"] c7_request
      c7_config.get_services c7_exposed (Or.inl ⟨rfl, c7_config, rfl, rfl⟩)
      (by decide)).2 (by decide)).1⟩

/-- C8: for either webhook-configuration kind, extraction yields exactly
the identities of the webhook entries whose `clientConfig.service` is
present — URL-based entries (no service reference) contribute nothing, and
an absent `webhooks` list yields the empty set. -/
theorem webhook_configuration_extraction (v : ValidatingWebhookConfiguration)
    (m : MutatingWebhookConfiguration) :
    (v.webhooks = none → v.get_services = ∅) ∧
    (∀ x : ServiceDetails, x ∈ v.get_services ↔
      ∃ w ∈ v.webhooks.getD [], ∃ r, w.client_config.service = some r ∧
        x = ServiceDetails.ofServiceReference r) ∧
    (m.webhooks = none → m.get_services = ∅) ∧
    (∀ x : ServiceDetails, x ∈ m.get_services ↔
      ∃ w ∈ m.webhooks.getD [], ∃ r, w.client_config.service = some r ∧
        x = ServiceDetails.ofServiceReference r) := by
  refine ⟨?_, ?_, ?_, ?_⟩
  · intro h
    simp [ValidatingWebhookConfiguration.get_services, h]
  · intro x
    cases hw : v.webhooks with
    | none => simp [ValidatingWebhookConfiguration.get_services, hw]
    | some ws =>
        simp only [ValidatingWebhookConfiguration.get_services, hw, List.mem_toFinset,
          List.mem_filterMap, Option.map_eq_some', Option.getD_some]
        constructor
        · rintro ⟨w, hwmem, r, hr, rfl⟩
          exact ⟨w, hwmem, r, hr, rfl⟩
        · rintro ⟨w, hwmem, r, hr, rfl⟩
          exact ⟨w, hwmem, r, hr, rfl⟩
  · intro h
    simp [MutatingWebhookConfiguration.get_services, h]
  · intro x
    cases hw : m.webhooks with
    | none => simp [MutatingWebhookConfiguration.get_services, hw]
    | some ws =>
        simp only [MutatingWebhookConfiguration.get_services, hw, List.mem_toFinset,
          List.mem_filterMap, Option.map_eq_some', Option.getD_some]
        constructor
        · rintro ⟨w, hwmem, r, hr, rfl⟩
          exact ⟨w, hwmem, r, hr, rfl⟩
        · rintro ⟨w, hwmem, r, hr, rfl⟩
          exact ⟨w, hwmem, r, hr, rfl⟩

def c8_service_ref : ServiceReference :=
  { name := "webhook-service", ns := "webhook-namespace", port := some 443 }

def c8_svc_webhook : ValidatingWebhook :=
  { client_config := { service := some c8_service_ref, url := none } }

def c8_url_webhook : ValidatingWebhook :=
  { client_config := { service := none, url := some "https://example.invalid/hook" } }

def c8_vwc : ValidatingWebhookConfiguration :=
  { metadata := { name := some "mixed-config", ns := none }
  , webhooks := some [c8_svc_webhook, c8_url_webhook] }

def c8_mwc_none : MutatingWebhookConfiguration :=
  { metadata := { name := some "empty-config", ns := none }, webhooks := none }

/-- Witness for C8 at a concrete input: an absent webhooks list yields the
empty set, and a service-referencing entry's identity is extracted. -/
theorem webhook_configuration_extraction_witness :
    c8_mwc_none.webhooks = none ∧
    c8_mwc_none.get_services = ∅ ∧
    ServiceDetails.ofServiceReference c8_service_ref ∈ c8_vwc.get_services :=
  ⟨rfl, (webhook_configuration_extraction c8_vwc c8_mwc_none).2.2.1 rfl,
    ((webhook_configuration_extraction c8_vwc c8_mwc_none).2.1
      (ServiceDetails.ofServiceReference c8_service_ref)).mpr
      ⟨c8_svc_webhook, by decide, c8_service_ref, rfl, rfl⟩⟩

/-- C9: an admission request whose `kind.kind` is neither
`ValidatingWebhookConfiguration` nor `MutatingWebhookConfiguration` is
accepted immediately; the result does not depend on the cluster query
functions or on the namespace order, i.e. no cluster query is
consulted. -/
theorem validate_unrecognized_kind_accepts {ε : Type} (req : ValidationRequest ε)
    (h1 : req.kind_kind ≠ "ValidatingWebhookConfiguration")
    (h2 : req.kind_kind ≠ "MutatingWebhookConfiguration") :
    ∀ (iq iq' : String → Except ε (List Ingress)) (sq sq' : String → Except ε (List Service))
      (ns_order ns_order' : List String),
      validate iq sq ns_order req = Except.ok PolicyResponse.accept ∧
      validate iq sq ns_order req = validate iq' sq' ns_order' req := by
  have hv : ∀ (iq0 : String → Except ε (List Ingress)) (sq0 : String → Except ε (List Service))
      (ns0 : List String), validate iq0 sq0 ns0 req = Except.ok PolicyResponse.accept := by
    intro iq0 sq0 ns0
    unfold validate
    rw [if_neg h1, if_neg h2]
  intro iq iq' sq sq' ns_order ns_order'
  exact ⟨hv iq sq ns_order, by rw [hv iq sq ns_order, hv iq' sq' ns_order']⟩

def c9_request : ValidationRequest String :=
  { kind_kind := "Pod"
  , object_as_validating := Except.error "not a webhook configuration"
  , object_as_mutating := Except.error "not a webhook configuration" }

/-- Witness for C9 at a concrete input: a request of kind `Pod` is
accepted, with the same result under entirely different query functions
(one of which always fails). -/
theorem validate_unrecognized_kind_accepts_witness :
    c9_request.kind_kind ≠ "ValidatingWebhookConfiguration" ∧
    c9_request.kind_kind ≠ "MutatingWebhookConfiguration" ∧
    validate w_iq w_sq ["my-namespace"] c9_request = Except.ok PolicyResponse.accept ∧
    validate w_iq w_sq ["my-namespace"] c9_request = validate c2_iq c7_sq [] c9_request :=
  ⟨by decide, by decide,
    (validate_unrecognized_kind_accepts c9_request (by decide) (by decide)
      w_iq c2_iq w_sq c7_sq ["my-namespace"] []).1,
    (validate_unrecognized_kind_accepts c9_request (by decide) (by decide)
      w_iq c2_iq w_sq c7_sq ["my-namespace"] []).2⟩

/-- C10: every identity extracted from a Service carries a concrete port
number, so a webhook target with an absent port is never reported exposed
through the NodePort/LoadBalancer mechanism; and a successful run of
`find_webhook_services_exposed` returns a subset of the webhook target
set. -/
theorem service_ports_concrete_and_result_subset {ε : Type}
    (iq : String → Except ε (List Ingress)) (sq : String → Except ε (List Service))
    (ns_order : List String) (targets : Finset ServiceDetails) :
    (∀ s : Service, ∀ x ∈ s.get_services, x.port_number.isSome = true) ∧
    (∀ (webhook_services : Finset ServiceDetails) (ns : String) (t : ServiceDetails)
        (E : Finset ServiceDetails), t.port_number = none →
      find_webhook_services_exposed_by_nodeport_loadbalancer_inside_of_namespace sq
          webhook_services ns = Except.ok E →
      t ∉ E) ∧
    (∀ E, find_webhook_services_exposed iq sq ns_order targets = Except.ok E →
      E ⊆ targets) := by
  refine ⟨?_, ?_, ?_⟩
  · intro s x hx
    rw [mem_service_get_services] at hx
    obtain ⟨spec, _, ports, _, p, _, rfl⟩ := hx
    rfl
  · intro webhook_services ns t E hnone hE ht
    cases hsq : sq ns with
    | error e =>
        rw [find_webhook_services_exposed_by_nodeport_loadbalancer_inside_of_namespace,
          hsq] at hE
        cases hE
    | ok services =>
        rw [find_by_nodeport_loadbalancer_ok sq webhook_services ns services hsq,
          Except.ok.injEq] at hE
        subst hE
        have hcand := Finset.mem_of_mem_inter_left ht
        rw [mem_nodeport_loadbalancer_candidates] at hcand
        obtain ⟨s, _, _, hx⟩ := hcand
        rw [mem_service_get_services] at hx
        obtain ⟨spec, _, ports, _, p, _, rfl⟩ := hx
        exact Option.noConfusion hnone
  · intro E hE
    exact find_go_subset iq sq targets ns_order ∅ E (Finset.empty_subset targets) hE

/-- Witness for C10 at a concrete input: a portless target is not in the
NodePort/LoadBalancer result, and the exposed set of the two-port scenario
is a subset of its webhook target set. -/
theorem service_ports_concrete_and_result_subset_witness :
    ({ name := "my-service", ns := "my-namespace", port_number := none } :
        ServiceDetails).port_number = none ∧
    ({ name := "my-service", ns := "my-namespace", port_number := none } :
        ServiceDetails) ∉
      nodeport_loadbalancer_candidates [c7_nodeport] ∩ c7_config.get_services ∧
    find_webhook_services_exposed c7_iq c7_sq ["my-namespace"] c7_config.get_services =
      Except.ok c7_exposed ∧
    c7_exposed ⊆ c7_config.get_services :=
  ⟨rfl,
    (service_ports_concrete_and_result_subset c7_iq c7_sq ["my-namespace"]
      c7_config.get_services).2.1 c7_config.get_services "my-namespace" _ _ rfl rfl,
    by decide,
    (service_ports_concrete_and_result_subset c7_iq c7_sq ["my-namespace"]
      c7_config.get_services).2.2 c7_exposed (by decide)⟩

end Kubewarden
